import Mathlib

/-!
Verification development for the sourcify contract-verification core
(`src/services/verification/src/services/Injector.ts`).

The TypeScript code is shallowly embedded: bytecodes and creation data are
hex `String`s (JavaScript strings), asynchronous external calls
(`getBytecode`, the creation-data strategies) are passed in as explicit
`Except Unit String` outcomes (`Except.error` models a rejected promise),
and persistence calls are reified as a list of `StorageAction`s.
-/

namespace Sourcify

/-- Decidable equality for `Except`, so that claims can be evaluated on
concrete inputs. -/
instance {ε α : Type} [DecidableEq ε] [DecidableEq α] : DecidableEq (Except ε α) := fun a b => by
  cases a with
  | error x =>
    cases b with
    | error y =>
      exact if h : x = y then isTrue (by rw [h]) else isFalse (fun hc => h (by injection hc))
    | ok y => exact isFalse (fun h => Except.noConfusion h)
  | ok x =>
    cases b with
    | error y => exact isFalse (fun h => Except.noConfusion h)
    | ok y =>
      exact if h : x = y then isTrue (by rw [h]) else isFalse (fun hc => h (by injection hc))

/-- JavaScript `pat.isPrefixOf`-style check on character lists:
`isPrefixList p s` is `true` when `p` is a prefix of `s`. -/
def isPrefixList : List Char → List Char → Bool
  | [], _ => true
  | _ :: _, [] => false
  | p :: ps, c :: cs => p = c && isPrefixList ps cs

/-- JavaScript `s.startsWith(p)`. -/
def strStartsWith (s p : String) : Bool :=
  isPrefixList p.data s.data

/-- `s.slice(i)` for a non-negative start index `n` (drop the first `n`
characters). -/
def strDrop (s : String) (n : Nat) : String :=
  String.mk (s.data.drop n)

/-- JavaScript `String.prototype.slice` with a single (possibly negative)
argument. -/
def jsSliceFrom (s : String) (i : Int) : String :=
  if i < 0 then String.mk (s.data.drop (Int.toNat ((s.data.length : Int) + i)))
  else String.mk (s.data.drop (Int.toNat i))

/-- Helper for JavaScript `String.prototype.indexOf`: index of the first
occurrence of `pat` in the remaining text, offset by `i`. -/
def listIndexOfAux (pat : List Char) : List Char → Nat → Option Nat
  | [], i => if isPrefixList pat [] then some i else none
  | c :: rest, i =>
      if isPrefixList pat (c :: rest) then some i
      else listIndexOfAux pat rest (i + 1)

/-- JavaScript `s.indexOf(pat)`: first occurrence index, `-1` when absent. -/
def strIndexOf (s pat : String) : Int :=
  match listIndexOfAux pat.data s.data 0 with
  | some i => (i : Int)
  | none => -1

/-- Value of one hexadecimal digit, `none` for a non-hex character. -/
def hexDigitVal (c : Char) : Option Nat :=
  let n := c.toNat
  if 48 ≤ n ∧ n ≤ 57 then some (n - 48)
  else if 97 ≤ n ∧ n ≤ 102 then some (n - 87)
  else if 65 ≤ n ∧ n ≤ 70 then some (n - 55)
  else none

/-- Big-endian hexadecimal parse of a character list, with accumulator. -/
def parseHexAux : List Char → Nat → Option Nat
  | [], acc => some acc
  | c :: cs, acc =>
      match hexDigitVal c with
      | some d => parseHexAux cs (16 * acc + d)
      | none => none

/-- Modelled from the spec: `getBytecodeWithoutMetadata` (imported from the
utils module, not part of the supplied source). The auxiliary-data trailer
ends in a 2-byte big-endian length of the metadata blob; trimming removes
`length + 2` trailing bytes (`2 * (length + 2)` hex characters), and absence
or malformation of the trailer is treated as nothing to trim. -/
def trimMetadata (bytecode : String) : String :=
  if 4 ≤ bytecode.data.length then
    let tail4 := bytecode.data.drop (bytecode.data.length - 4)
    match parseHexAux tail4 0 with
    | some len =>
        let removeChars := 2 * (len + 2)
        if 2 + removeChars ≤ bytecode.data.length then
          String.mk (bytecode.data.take (bytecode.data.length - removeChars))
        else bytecode
    | none => bytecode
  else bytecode

/-- Match status of the comparator (`'perfect' | 'partial'`); absence of a
match is `Option.none` at use sites, mirroring the nullable TypeScript
`Status`. -/
inductive Status where
  | perfect
  | partialMatch
deriving DecidableEq, Repr

/-- `CompareResult` from the core types: a nullable status and optionally the
ABI-encoded constructor arguments. -/
structure CompareResult where
  status : Option Status
  encodedConstructorArgs : Option String
deriving DecidableEq, Repr

/-- `Injector.extractEncodedConstructorArgs`. -/
def extractEncodedConstructorArgs (creationData compiledCreationBytecode : String) : String :=
  let startIndex := strIndexOf creationData compiledCreationBytecode
  "0x" ++ jsSliceFrom creationData (startIndex + (compiledCreationBytecode.length : Int))

/-- `Injector.compareBytecodes`, instrumented: the second component of the
result records whether the lazy creation-data fetch (`this.getCreationData`)
was invoked. The fetcher argument stands for that asynchronous call: `.ok`
is a resolved promise, `.error` a rejected one (so an `Except.error` result
of the whole function models `compareBytecodes` throwing). JavaScript
truthiness of a string is modelled as inequality with `""`. -/
def compareBytecodesT (deployedBytecode creationData : Option String)
    (compiledRuntimeBytecode compiledCreationBytecode : String)
    (fetcher : Except Unit String) : Except Unit (CompareResult × Bool) :=
  match deployedBytecode with
  | none => Except.ok (⟨none, none⟩, false)
  | some db =>
    if 2 < db.length then
      if db = compiledRuntimeBytecode then
        Except.ok (⟨some Status.perfect, none⟩, false)
      else
        let trimmedDeployedBytecode := trimMetadata db
        let trimmedCompiledRuntimeBytecode := trimMetadata compiledRuntimeBytecode
        if trimmedDeployedBytecode = trimmedCompiledRuntimeBytecode then
          Except.ok (⟨some Status.partialMatch, none⟩, false)
        else if trimmedDeployedBytecode.length = trimmedCompiledRuntimeBytecode.length then
          let continueWith : String → Bool → Except Unit (CompareResult × Bool) := fun cd flag =>
            if cd = "" then Except.ok (⟨none, none⟩, flag)
            else if strStartsWith cd compiledCreationBytecode then
              Except.ok (⟨some Status.perfect,
                some (extractEncodedConstructorArgs cd compiledCreationBytecode)⟩, flag)
            else
              let trimmedCompiledCreationBytecode := trimMetadata compiledCreationBytecode
              if strStartsWith cd trimmedCompiledCreationBytecode then
                Except.ok (⟨some Status.partialMatch, none⟩, flag)
              else Except.ok (⟨none, none⟩, flag)
          match creationData with
          | some cd =>
              if cd = "" then
                match fetcher with
                | Except.ok fetched => continueWith fetched true
                | Except.error e => Except.error e
              else continueWith cd false
          | none =>
              match fetcher with
              | Except.ok fetched => continueWith fetched true
              | Except.error e => Except.error e
        else Except.ok (⟨none, none⟩, false)
    else Except.ok (⟨none, none⟩, false)

/-- `Injector.compareBytecodes` proper: the instrumented version without the
fetch flag. -/
def compareBytecodes (deployedBytecode creationData : Option String)
    (compiledRuntimeBytecode compiledCreationBytecode : String)
    (fetcher : Except Unit String) : Except Unit CompareResult :=
  Except.map Prod.fst
    (compareBytecodesT deployedBytecode creationData compiledRuntimeBytecode
      compiledCreationBytecode fetcher)

/-- The fields of `InjectorChain` that `getCreationData` consults to gate its
strategies. For the two web3 handles only presence matters here, so the
archive handle is a `Bool`. -/
structure ChainConfig where
  contractFetchAddress : Option String
  txRegex : Option String
  graphQLFetchAddress : Option String
  archiveWeb3 : Bool
deriving DecidableEq, Repr

/-- Gate of the scraping strategy: `if (txFetchAddress && txRegex)`. -/
def scrapeOn (cfg : ChainConfig) : Bool :=
  cfg.contractFetchAddress.isSome && cfg.txRegex.isSome

/-- Gate of the GraphQL strategy: `if (graphQLFetchAddress)`. -/
def graphQLOn (cfg : ChainConfig) : Bool :=
  cfg.graphQLFetchAddress.isSome

/-- Gate of the archive strategy: `if (archiveWeb3)`. -/
def archiveOn (cfg : ChainConfig) : Bool :=
  cfg.archiveWeb3

/-- Log entry contributed by a configured strategy whose call rejected:
the `catch` branches of `getCreationData` log and fall through. -/
def failLog (gate : Bool) (outcome : Except Unit String) (msg : String) : List String :=
  if gate then
    match outcome with
    | Except.error _ => [msg]
    | Except.ok _ => []
  else []

/-- `Injector.getCreationData`. The three external strategy calls
(`getCreationDataByScraping`, `getCreationDataFromGraphQL`,
`getCreationDataFromArchive`) are passed in as their outcomes; the second
component of the result is the sequence of error-log messages emitted.
An `Except.error` result models the final `throw new Error(...)`. -/
def getCreationData (cfg : ChainConfig) (scrape graphql archive : Except Unit String) :
    Except Unit String × List String :=
  match (if scrapeOn cfg then some scrape else none) with
  | some (Except.ok data) => (Except.ok data, [])
  | other1 =>
    let log1 : List String :=
      match other1 with
      | some (Except.error _) => ["Scraping failed!"]
      | _ => []
    match (if graphQLOn cfg then some graphql else none) with
    | some (Except.ok data) => (Except.ok data, log1)
    | other2 =>
      let log2 : List String := log1 ++
        (match other2 with
         | some (Except.error _) => ["GraphQL fetch failed!"]
         | _ => [])
      match (if archiveOn cfg then some archive else none) with
      | some (Except.ok data) => (Except.ok data, log2)
      | other3 =>
        let log3 : List String := log2 ++
          (match other3 with
           | some (Except.error _) => ["Archive search failed!"]
           | _ => [])
        (Except.error (), log3 ++ ["Cannot fetch creation data"])

/-- The `Match` record of the core types: nullable address and status,
optional constructor arguments and diagnostic message. -/
structure MatchResult where
  address : Option String
  status : Option Status
  encodedConstructorArgs : Option String := none
  message : Option String := none
deriving DecidableEq, Repr

/-- The initial `let match: Match = { address: null, status: null }`. -/
def initialMatch : MatchResult := { address := none, status := none }

/-- The character `'` (codepoint 39), kept out of string literals. -/
def apostrophe : String := String.mk [Char.ofNat 39]

/-- Message set when `compareBytecodes` throws and a single address was
supplied. -/
def msgRetry : String :=
  "There were problems during contract verification. Please try again in a minute."

/-- Diagnostic for an unavailable chain endpoint (no bytecode fetched). -/
def msgUnavailable (chainName : String) : String :=
  chainName ++ " is temporarily unavailable."

/-- Diagnostic for the empty-contract sentinel at the address. -/
def msgNoContract (chainName address : String) : String :=
  chainName ++ " does not have a contract deployed at " ++ address ++ "."

/-- Diagnostic for present but non-matching bytecode. -/
def msgMismatch : String :=
  "The deployed and recompiled bytecode don" ++ apostrophe ++ "t match."

/-- Per-candidate environment of the `matchBytecodeToAddress` loop: the
submitted address, the outcome of `getBytecode` for it (rejection means the
`catch` leaves `deployedBytecode` as `null`), and the outcome the
creation-data resolver would produce for it. -/
structure AddressEnv where
  address : String
  getBytecodeResult : Except Unit String
  fetcher : Except Unit String
deriving DecidableEq, Repr

/-- The deployed bytecode visible after the `try { ... getBytecode ... }
catch (e) { /* ignore */ }` block. -/
def deployedOf (e : AddressEnv) : Option String :=
  match e.getBytecodeResult with
  | Except.ok s => some s
  | Except.error _ => none

/-- Body of the `for (let address of addresses)` loop of
`matchBytecodeToAddress`. `total` is `addresses.length`, constant across
iterations; `m` is the accumulated `match` record. Returning without
consuming the remaining environments models the `break` on a successful
comparison. -/
def matchLoop (total : Nat) (chainName compiledRuntimeBytecode compiledCreationBytecode : String)
    (checksum : String → String) : List AddressEnv → MatchResult → MatchResult
  | [], m => m
  | e :: rest, m =>
      let address := checksum e.address
      let deployedBytecode := deployedOf e
      match compareBytecodes deployedBytecode none compiledRuntimeBytecode
          compiledCreationBytecode e.fetcher with
      | Except.ok compareResult =>
          match compareResult.status with
          | some st =>
              { address := some address, status := some st,
                encodedConstructorArgs := compareResult.encodedConstructorArgs,
                message := none }
          | none =>
              let m1 :=
                if total = 1 ∧ m.message = none then
                  if deployedBytecode = none ∨ deployedBytecode = some "" then
                    { m with message := some (msgUnavailable chainName) }
                  else if deployedBytecode = some "0x" then
                    { m with message := some (msgNoContract chainName address) }
                  else
                    { m with message := some msgMismatch }
                else m
              matchLoop total chainName compiledRuntimeBytecode compiledCreationBytecode
                checksum rest m1
      | Except.error _ =>
          let m1 := if total = 1 then { m with message := some msgRetry } else m
          matchLoop total chainName compiledRuntimeBytecode compiledCreationBytecode
            checksum rest m1

/-- `Injector.matchBytecodeToAddress`. The chain name (with its
`|| "The chain"` fallback already applied) and the external
`Web3.utils.toChecksumAddress` are parameters. -/
def matchBytecodeToAddress (chainName compiledRuntimeBytecode compiledCreationBytecode : String)
    (checksum : String → String) (envs : List AddressEnv) : MatchResult :=
  matchLoop envs.length chainName compiledRuntimeBytecode compiledCreationBytecode
    checksum envs initialMatch

/-- `MatchQuality` of the core types: `'full' | 'partial'`. -/
inductive MatchQuality where
  | full
  | partialQuality
deriving DecidableEq, Repr

/-- `Injector.statusToMatchQuality`; the TypeScript function returns
`undefined` on a `null` status, modelled as `Option.none`. -/
def statusToMatchQuality : Option Status → Option MatchQuality
  | some Status.perfect => some MatchQuality.full
  | some Status.partialMatch => some MatchQuality.partialQuality
  | none => none

/-- The object literal passed to `fileService.save` by `storeSources`,
`storeMetadata` and `storeConstructorArgs`. -/
structure StorageTarget where
  matchQuality : Option MatchQuality
  chain : String
  address : String
  source : Option Bool
  fileName : String
deriving DecidableEq, Repr

/-- One persistence call made by the storage phase of `inject`, in order of
execution. -/
inductive StorageAction where
  | savePath (path content : String)
  | deletePartialRecord (chain address : String)
  | saveTarget (target : StorageTarget) (content : String)
deriving DecidableEq, Repr

/-- The storage phase of `Injector.inject` (everything from
`if (match.address && match.status)` on). The content-address path, computed
by `getMetadataPathFromCborEncoded` from the compiled bytecode, is passed in
as `metadataPath`; `sources` is `contract.solidity` as an association list
and `sanitize` stands for `sanitizePath` (whose JavaScript-regex replacement
is external to this logic). The result is the returned `Match` together with
the persistence calls issued, or the thrown error message. -/
def injectStore (chain contractName metadata : String) (sources : List (String × String))
    (sanitize : String → String) (m : MatchResult) (metadataPath : Option String) :
    Except String (MatchResult × List StorageAction) :=
  match m.address, m.status with
  | some a, some _ =>
      let step1 : MatchResult × List StorageAction :=
        match metadataPath with
        | some p => (m, [StorageAction.savePath p metadata,
                         StorageAction.deletePartialRecord chain a])
        | none => ({ m with status := some Status.partialMatch }, [])
      let m1 := step1.fst
      let matchQuality := statusToMatchQuality m1.status
      let sourceActs := sources.map (fun pr =>
        StorageAction.saveTarget
          { matchQuality := matchQuality, chain := chain, address := a,
            source := some true, fileName := sanitize pr.fst } pr.snd)
      let metadataAct := StorageAction.saveTarget
        { matchQuality := matchQuality, chain := chain, address := a,
          source := none, fileName := "metadata.json" } metadata
      let ctorActs :=
        match m1.encodedConstructorArgs with
        | some args =>
            if args = "" then []
            else [StorageAction.saveTarget
              { matchQuality := matchQuality, chain := chain, address := a,
                source := some false, fileName := "constructor-args.txt" } args]
        | none => []
      Except.ok (m1, step1.snd ++ sourceActs ++ [metadataAct] ++ ctorActs)
  | _, _ =>
      Except.error ("Contract name: " ++ contractName ++ ". " ++
        (match m.message with
         | some msg => msg
         | none => "Could not match the deployed and recompiled bytecode."))

/-- The decoded auxiliary-data trailer as far as
`getMetadataPathFromCborEncoded` consults it: the optional `bzzr0`, `bzzr1`
and `ipfs` entries, each a byte sequence. Modelled from the spec: the
external `cborDecode` collaborator produces this map, and a failed or empty
decode yields a map with none of the three keys. -/
structure CborMap where
  bzzr0 : Option (List Nat)
  bzzr1 : Option (List Nat)
  ipfs : Option (List Nat)
deriving DecidableEq, Repr

/-- One lowercase hexadecimal digit character. -/
def hexChar (n : Nat) : Char :=
  if n < 10 then Char.ofNat (48 + n) else Char.ofNat (87 + n)

/-- `Web3.utils.bytesToHex(...).slice(2)`: lowercase hex of a byte sequence,
without the `0x` prefix. -/
def hexOfBytes (bs : List Nat) : String :=
  String.mk (List.flatten (bs.map (fun b => [hexChar (b / 16 % 16), hexChar (b % 16)])))

/-- `Injector.getMetadataPathFromCborEncoded`, applied to the decoded
trailer; `toB58` stands for the external `multihashes.toB58String`. -/
def getMetadataPathFromCborEncoded (cborData : CborMap) (toB58 : List Nat → String) :
    Option String :=
  match cborData.bzzr0 with
  | some bs => some ("/swarm/bzzr0/" ++ hexOfBytes bs)
  | none =>
    match cborData.bzzr1 with
    | some bs => some ("/swarm/bzzr1/" ++ hexOfBytes bs)
    | none =>
      match cborData.ipfs with
      | some bs => some ("/ipfs/" ++ toB58 bs)
      | none => none

/-- The match-quality tag carried by a persistence call, when it has one. -/
def actionTag : StorageAction → Option (Option MatchQuality)
  | StorageAction.saveTarget t _ => some t.matchQuality
  | _ => none

/-! ## Helper lemmas -/

theorem strEqOfData : ∀ {s t : String}, s.data = t.data → s = t := by
  intro s t h
  cases s
  cases t
  cases h
  rfl

theorem isPrefixList_iff : ∀ (p s : List Char), isPrefixList p s = true ↔ ∃ t, p ++ t = s := by
  intro p
  induction p with
  | nil =>
      intro s
      simp [isPrefixList]
  | cons a as ih =>
      intro s
      cases s with
      | nil =>
          simp [isPrefixList]
      | cons b bs =>
          simp only [isPrefixList, Bool.and_eq_true, decide_eq_true_eq, ih bs]
          constructor
          · rintro ⟨rfl, t, rfl⟩
            exact ⟨t, rfl⟩
          · rintro ⟨t, ht⟩
            injection ht with h1 h2
            exact ⟨h1, t, h2⟩

theorem isPrefixList_self (l : List Char) : isPrefixList l l = true :=
  (isPrefixList_iff l l).mpr ⟨[], List.append_nil l⟩

theorem listIndexOfAux_zero_of_starts {pat s : List Char} (h : isPrefixList pat s = true) :
    listIndexOfAux pat s 0 = some 0 := by
  cases s with
  | nil => simp [listIndexOfAux, h]
  | cons c rest => simp [listIndexOfAux, h]

theorem extract_eq_suffix {creationData compiledCreationBytecode : String}
    (h : strStartsWith creationData compiledCreationBytecode = true) :
    extractEncodedConstructorArgs creationData compiledCreationBytecode =
      "0x" ++ strDrop creationData compiledCreationBytecode.length := by
  have hidx : strIndexOf creationData compiledCreationBytecode = 0 := by
    unfold strIndexOf
    rw [listIndexOfAux_zero_of_starts h]
    rfl
  have hnonneg : ¬ ((compiledCreationBytecode.length : Int) < 0) := by
    omega
  have htn : Int.toNat ((compiledCreationBytecode.length : Int)) =
      compiledCreationBytecode.length := by
    omega
  simp [extractEncodedConstructorArgs, jsSliceFrom, hidx, hnonneg, htn, strDrop]

theorem length_gt_two_of_hex_form {s : String}
    (h1 : strStartsWith s "0x" = true) (h2 : s ≠ "0x") : 2 < s.length := by
  have hdata : ("0x" : String).data = ['0', 'x'] := rfl
  have := (isPrefixList_iff ("0x" : String).data s.data).mp h1
  obtain ⟨t, ht⟩ := this
  rw [hdata] at ht
  have hlen : s.length = s.data.length := rfl
  cases t with
  | nil =>
      exfalso
      apply h2
      apply strEqOfData
      rw [← ht]
      rfl
  | cons c cs =>
      rw [hlen, ← ht]
      simp

theorem strLength_eq (s : String) : s.length = s.data.length := rfl

theorem strDrop_length_self (s : String) : strDrop s s.length = "" := by
  unfold strDrop
  rw [strLength_eq, List.drop_length]

theorem strStartsWith_self (s : String) : strStartsWith s s = true :=
  isPrefixList_self s.data

/-! ## Claims -/

/-- C1: an absent deployed runtime bytecode, or one equal to the empty
sentinel `0x`, makes `compareBytecodes` return status none; a non-empty
deployed bytecode (a `0x`-prefixed hex string other than the bare sentinel)
equal byte-for-byte to the compiled runtime bytecode yields the exact
(`perfect`) status with no constructor arguments. -/
theorem claim1_sentinel_and_exact (creationData : Option String)
    (compiledRuntimeBytecode compiledCreationBytecode : String)
    (fetcher : Except Unit String) :
    compareBytecodes none creationData compiledRuntimeBytecode compiledCreationBytecode
      fetcher = Except.ok ⟨none, none⟩ ∧
    compareBytecodes (some "0x") creationData compiledRuntimeBytecode compiledCreationBytecode
      fetcher = Except.ok ⟨none, none⟩ ∧
    (strStartsWith compiledRuntimeBytecode "0x" = true → compiledRuntimeBytecode ≠ "0x" →
      compareBytecodes (some compiledRuntimeBytecode) creationData compiledRuntimeBytecode
        compiledCreationBytecode fetcher = Except.ok ⟨some Status.perfect, none⟩) := by
  refine ⟨rfl, ?_, ?_⟩
  · have hlen : ¬ (2 < ("0x" : String).length) := by decide
    simp [compareBytecodes, compareBytecodesT, hlen]
    rfl
  · intro h1 h2
    have hlen := length_gt_two_of_hex_form h1 h2
    simp [compareBytecodes, compareBytecodesT, hlen]
    rfl

/-- Closed witness for C1 at concrete bytecodes. -/
theorem claim1_sentinel_and_exact_witness :
    strStartsWith "0xaabb" "0x" = true ∧ ("0xaabb" : String) ≠ "0x" ∧
    compareBytecodes (some "0xaabb") none "0xaabb" "0x" (Except.ok "")
      = Except.ok ⟨some Status.perfect, none⟩ :=
  ⟨by decide, by decide,
    (claim1_sentinel_and_exact none "0xaabb" "0x" (Except.ok "")).2.2 (by decide) (by decide)⟩

/-- C2: when the trimmed runtime bytecode lengths differ (which also rules
out an exact or trimmed match), `compareBytecodes` returns status none and
never invokes the creation-data fetcher: the instrumentation flag is `false`
and the outcome is the same for every fetcher. -/
theorem claim2_trimmed_length_gate (deployed compiledRuntimeBytecode compiledCreationBytecode : String)
    (creationData : Option String) (fetcher : Except Unit String)
    (h : (trimMetadata deployed).length ≠ (trimMetadata compiledRuntimeBytecode).length) :
    compareBytecodesT (some deployed) creationData compiledRuntimeBytecode
      compiledCreationBytecode fetcher = Except.ok (⟨none, none⟩, false) := by
  by_cases h1 : 2 < deployed.length
  · by_cases h2 : deployed = compiledRuntimeBytecode
    · exact absurd (by rw [h2]) h
    · have h3 : trimMetadata deployed ≠ trimMetadata compiledRuntimeBytecode :=
        fun hc => h (by rw [hc])
      simp [compareBytecodesT, h1, h2, h3, h]
  · simp [compareBytecodesT, h1]

/-- Closed witness for C2 at concrete bytecodes of different trimmed
lengths. -/
theorem claim2_trimmed_length_gate_witness :
    (trimMetadata "0xaa").length ≠ (trimMetadata "0xbbcc").length ∧
    compareBytecodesT (some "0xaa") none "0xbbcc" "0x" (Except.error ())
      = Except.ok (⟨none, none⟩, false) :=
  ⟨by decide, claim2_trimmed_length_gate "0xaa" "0xbbcc" "0x" none (Except.error ()) (by decide)⟩

/-- C3: past the trimmed-length gate, a fetched creation data string (a
`0x`-prefixed hex string) that starts with the full compiled creation
bytecode yields the exact (`perfect`) status, and the extracted encoded
constructor arguments are exactly `0x` followed by the suffix of the
creation data after that prefix. -/
theorem claim3_constructor_args_suffix
    (deployed compiledRuntimeBytecode compiledCreationBytecode creationData : String)
    (h1 : 2 < deployed.length)
    (h2 : deployed ≠ compiledRuntimeBytecode)
    (h3 : trimMetadata deployed ≠ trimMetadata compiledRuntimeBytecode)
    (h4 : (trimMetadata deployed).length = (trimMetadata compiledRuntimeBytecode).length)
    (h5 : strStartsWith creationData "0x" = true)
    (h6 : strStartsWith creationData compiledCreationBytecode = true) :
    compareBytecodes (some deployed) none compiledRuntimeBytecode compiledCreationBytecode
      (Except.ok creationData) =
      Except.ok ⟨some Status.perfect,
        some ("0x" ++ strDrop creationData compiledCreationBytecode.length)⟩ := by
  have hne : creationData ≠ "" := by
    intro hc
    rw [hc] at h5
    exact absurd h5 (by decide)
  simp [compareBytecodes, compareBytecodesT, h1, h2, h3, h4, hne, h6, extract_eq_suffix h6]
  rfl

/-- Closed witness for C3 at concrete bytecodes. -/
theorem claim3_constructor_args_suffix_witness :
    compareBytecodes (some "0xaabb") none "0xccdd" "0xee" (Except.ok "0xee1234")
      = Except.ok ⟨some Status.perfect, some ("0x" ++ strDrop "0xee1234" ("0xee" : String).length)⟩ :=
  claim3_constructor_args_suffix "0xaabb" "0xccdd" "0xee" "0xee1234"
    (by decide) (by decide) (by decide) (by decide) (by decide) (by decide)

/-- C4 counterexample: when every creation-data strategy fails, the
comparator does not return status none at the comparison that needed the
creation data; it propagates the error to its caller. -/
theorem claim4_counterexample :
    compareBytecodes (some "0xaabb") none "0xccdd" "0xee" (Except.error ()) = Except.error () ∧
    compareBytecodes (some "0xaabb") none "0xccdd" "0xee" (Except.error ())
      ≠ Except.ok ⟨none, none⟩ :=
  ⟨rfl, by decide⟩

/-- C4 amended: when the creation-data resolver fails, the error propagates
out of `compareBytecodes`; its caller `matchBytecodeToAddress` catches it
and the overall match for that comparison has status none (with a retry
message when exactly one candidate address was supplied). -/
theorem claim4_error_caught_by_caller
    (chainName compiledRuntimeBytecode compiledCreationBytecode : String)
    (checksum : String → String) (e : AddressEnv)
    (h : compareBytecodes (deployedOf e) none compiledRuntimeBytecode compiledCreationBytecode
      e.fetcher = Except.error ()) :
    matchBytecodeToAddress chainName compiledRuntimeBytecode compiledCreationBytecode
      checksum [e] =
      { address := none, status := none, encodedConstructorArgs := none,
        message := some msgRetry } := by
  unfold matchBytecodeToAddress
  simp [matchLoop, h, initialMatch]

/-- Closed witness for the amended C4 at a concrete failing fetcher. -/
theorem claim4_error_caught_by_caller_witness :
    matchBytecodeToAddress "Chain" "0xccdd" "0xee" (fun x => x)
      [⟨"0xabc", Except.ok "0xaabb", Except.error ()⟩] =
      { address := none, status := none, encodedConstructorArgs := none,
        message := some msgRetry } :=
  claim4_error_caught_by_caller "Chain" "0xccdd" "0xee" (fun x => x)
    ⟨"0xabc", Except.ok "0xaabb", Except.error ()⟩ rfl

/-- C10: a creation data equal to the compiled creation bytecode yields the
exact status with encoded constructor arguments equal to the two-character
string `0x`; since `0x` is non-empty, the storage phase still persists a
constructor-arguments file whose content is `0x`, a hex string with an
empty byte payload after the prefix. -/
theorem claim10_empty_constructor_args
    (deployed compiledRuntimeBytecode compiledCreationBytecode : String)
    (chain contractName metadata a p : String)
    (sources : List (String × String)) (sanitize : String → String)
    (h1 : 2 < deployed.length)
    (h2 : deployed ≠ compiledRuntimeBytecode)
    (h3 : trimMetadata deployed ≠ trimMetadata compiledRuntimeBytecode)
    (h4 : (trimMetadata deployed).length = (trimMetadata compiledRuntimeBytecode).length)
    (h5 : compiledCreationBytecode ≠ "") :
    compareBytecodes (some deployed) none compiledRuntimeBytecode compiledCreationBytecode
      (Except.ok compiledCreationBytecode) = Except.ok ⟨some Status.perfect, some "0x"⟩ ∧
    (∃ m1 acts,
      injectStore chain contractName metadata sources sanitize
        { address := some a, status := some Status.perfect,
          encodedConstructorArgs := some "0x", message := none } (some p) =
        Except.ok (m1, acts) ∧
      StorageAction.saveTarget
        { matchQuality := some MatchQuality.full, chain := chain, address := a,
          source := some false, fileName := "constructor-args.txt" } "0x" ∈ acts) ∧
    strDrop "0x" 2 = "" := by
  refine ⟨?_, ?_, by decide⟩
  · have hpr := strStartsWith_self compiledCreationBytecode
    have hex : extractEncodedConstructorArgs compiledCreationBytecode compiledCreationBytecode
        = "0x" := by
      rw [extract_eq_suffix hpr, strDrop_length_self]
      rfl
    simp [compareBytecodes, compareBytecodesT, h1, h2, h3, h4, h5, hpr, hex]
    rfl
  · refine ⟨_, _, rfl, ?_⟩
    simp [injectStore, statusToMatchQuality]

/-- C5 counterexample: a strategy that resolves with an empty result is not
fallen through; with scraping and GraphQL both configured, a scrape that
resolves with the empty string is returned as the creation data instead of
the GraphQL result. -/
theorem claim5_counterexample :
    (getCreationData ⟨some "url", some "rx", some "gql", true⟩
      (Except.ok "") (Except.ok "0xdd") (Except.ok "0xee")).fst = Except.ok "" ∧
    (getCreationData ⟨some "url", some "rx", some "gql", true⟩
      (Except.ok "") (Except.ok "0xdd") (Except.ok "0xee")).fst ≠ Except.ok "0xdd" :=
  ⟨rfl, by decide⟩

/-- C5 amended: `getCreationData` attempts scrape (gated on both a fetch
address and a transaction regex), then GraphQL (gated on its endpoint),
then archive search (gated on an archive handle), in that fixed order; a
configured strategy whose call rejects is logged and fallen through, and
the first configured strategy whose call resolves determines the returned
creation data, even when it resolves with an empty string; when no
configured strategy resolves, the function throws after logging. -/
theorem claim5_strategy_order (cfg : ChainConfig) (scrape graphql archive : Except Unit String) :
    (∀ d, scrapeOn cfg = true → scrape = Except.ok d →
      getCreationData cfg scrape graphql archive = (Except.ok d, [])) ∧
    (∀ d, graphQLOn cfg = true → graphql = Except.ok d →
      (scrapeOn cfg = false ∨ scrape = Except.error ()) →
      getCreationData cfg scrape graphql archive =
        (Except.ok d, failLog (scrapeOn cfg) scrape "Scraping failed!")) ∧
    (∀ d, archiveOn cfg = true → archive = Except.ok d →
      (scrapeOn cfg = false ∨ scrape = Except.error ()) →
      (graphQLOn cfg = false ∨ graphql = Except.error ()) →
      getCreationData cfg scrape graphql archive =
        (Except.ok d, failLog (scrapeOn cfg) scrape "Scraping failed!" ++
          failLog (graphQLOn cfg) graphql "GraphQL fetch failed!")) ∧
    ((scrapeOn cfg = false ∨ scrape = Except.error ()) →
      (graphQLOn cfg = false ∨ graphql = Except.error ()) →
      (archiveOn cfg = false ∨ archive = Except.error ()) →
      getCreationData cfg scrape graphql archive =
        (Except.error (), failLog (scrapeOn cfg) scrape "Scraping failed!" ++
          failLog (graphQLOn cfg) graphql "GraphQL fetch failed!" ++
          failLog (archiveOn cfg) archive "Archive search failed!" ++
          ["Cannot fetch creation data"])) := by
  refine ⟨?_, ?_, ?_, ?_⟩
  · intro d hs hok
    simp [getCreationData, hs, hok]
  · intro d hg hok hsf
    cases hsc : scrapeOn cfg <;> rcases hsf with hsf | hsf <;>
      simp_all [getCreationData, failLog]
  · intro d ha hok hsf hgf
    cases hsc : scrapeOn cfg <;> cases hgc : graphQLOn cfg <;>
      rcases hsf with hsf | hsf <;> rcases hgf with hgf | hgf <;>
        simp_all [getCreationData, failLog]
  · intro hsf hgf haf
    cases hsc : scrapeOn cfg <;> cases hgc : graphQLOn cfg <;> cases hac : archiveOn cfg <;>
      rcases hsf with hsf | hsf <;> rcases hgf with hgf | hgf <;> rcases haf with haf | haf <;>
        simp_all [getCreationData, failLog]

/-- Closed witness for the amended C5: scrape and GraphQL configured but
rejecting, archive succeeding; both failures are logged and the archive
result is returned. -/
theorem claim5_strategy_order_witness :
    getCreationData ⟨some "u", some "r", some "g", true⟩
      (Except.error ()) (Except.error ()) (Except.ok "0xee")
      = (Except.ok "0xee", ["Scraping failed!", "GraphQL fetch failed!"]) := by
  rw [(claim5_strategy_order ⟨some "u", some "r", some "g", true⟩
    (Except.error ()) (Except.error ()) (Except.ok "0xee")).2.2.1 "0xee"
    rfl rfl (Or.inr rfl) (Or.inr rfl)]
  rfl

/-- C6: candidates are tried strictly in the supplied order: after any
prefix of candidates whose comparisons do not produce a status, the first
candidate whose comparison yields a status makes the loop return that
candidate (checksummed) with that status at once; the result does not
depend on the remaining candidates, which are never fetched or compared. -/
theorem claim6_first_match_wins
    (chainName compiledRuntimeBytecode compiledCreationBytecode : String)
    (checksum : String → String)
    (pre : List AddressEnv) (e : AddressEnv) (rest : List AddressEnv)
    (r : CompareResult) (st : Status)
    (hpre : ∀ x ∈ pre, ∀ rx, compareBytecodes (deployedOf x) none compiledRuntimeBytecode
      compiledCreationBytecode x.fetcher = Except.ok rx → rx.status = none)
    (he : compareBytecodes (deployedOf e) none compiledRuntimeBytecode
      compiledCreationBytecode e.fetcher = Except.ok r)
    (hst : r.status = some st) :
    matchBytecodeToAddress chainName compiledRuntimeBytecode compiledCreationBytecode
      checksum (pre ++ e :: rest) =
      { address := some (checksum e.address), status := some st,
        encodedConstructorArgs := r.encodedConstructorArgs, message := none } := by
  unfold matchBytecodeToAddress
  generalize (pre ++ e :: rest).length = total
  generalize initialMatch = m0
  induction pre generalizing m0 with
  | nil =>
      simp [matchLoop, he, hst]
  | cons x pre ih =>
      have hx' : ∀ y ∈ pre, ∀ rx, compareBytecodes (deployedOf y) none compiledRuntimeBytecode
          compiledCreationBytecode y.fetcher = Except.ok rx → rx.status = none :=
        fun y hy => hpre y (List.mem_cons_of_mem x hy)
      simp only [List.cons_append, matchLoop]
      cases hx : compareBytecodes (deployedOf x) none compiledRuntimeBytecode
          compiledCreationBytecode x.fetcher with
      | ok rx =>
          have hnone : rx.status = none := hpre x (List.mem_cons_self x pre) rx hx
          simp only [hx, hnone]
          exact ih hx' _
      | error err =>
          simp only [hx]
          exact ih hx' _

/-- Closed witness for C6: two candidates, the first matching exactly; the
second (which would fail) is never consulted. -/
theorem claim6_first_match_wins_witness :
    matchBytecodeToAddress "Chain" "0xaabb" "0x" (fun x => x)
      [⟨"0xA", Except.ok "0xaabb", Except.ok ""⟩,
       ⟨"0xB", Except.error (), Except.error ()⟩] =
      { address := some "0xA", status := some Status.perfect,
        encodedConstructorArgs := none, message := none } :=
  claim6_first_match_wins "Chain" "0xaabb" "0x" (fun x => x) []
    ⟨"0xA", Except.ok "0xaabb", Except.ok ""⟩
    [⟨"0xB", Except.error (), Except.error ()⟩]
    ⟨some Status.perfect, none⟩ Status.perfect
    (fun x hx => absurd hx (List.not_mem_nil x)) rfl rfl

/-- With more than one (or zero) candidate addresses, the loop never sets a
diagnostic message. -/
theorem matchLoop_message_none (total : Nat)
    (chainName compiledRuntimeBytecode compiledCreationBytecode : String)
    (checksum : String → String) (h : total ≠ 1) :
    ∀ envs (m : MatchResult), m.message = none →
      (matchLoop total chainName compiledRuntimeBytecode compiledCreationBytecode
        checksum envs m).message = none := by
  intro envs
  induction envs with
  | nil =>
      intro m hm
      simpa [matchLoop] using hm
  | cons e rest ih =>
      intro m hm
      simp only [matchLoop]
      cases hc : compareBytecodes (deployedOf e) none compiledRuntimeBytecode
          compiledCreationBytecode e.fetcher with
      | ok r =>
          simp only [hc]
          cases hs : r.status with
          | some st => simp [hs]
          | none =>
              simp only [hs]
              have hcond : ¬ (total = 1 ∧ m.message = none) := fun hcon => h hcon.1
              rw [if_neg hcond]
              exact ih m hm
      | error err =>
          simp only [hc]
          rw [if_neg h]
          exact ih m hm

/-- C7: a match with status none carries a diagnostic message exactly when
one candidate address was supplied, and with a single candidate the message
distinguishes a failed bytecode fetch, the empty sentinel `0x`, and present
but non-matching bytecode. -/
theorem claim7_single_candidate_diagnostics
    (chainName compiledRuntimeBytecode compiledCreationBytecode : String)
    (checksum : String → String) :
    (∀ envs, envs.length ≠ 1 →
      (matchBytecodeToAddress chainName compiledRuntimeBytecode compiledCreationBytecode
        checksum envs).message = none) ∧
    (∀ e, (matchBytecodeToAddress chainName compiledRuntimeBytecode compiledCreationBytecode
        checksum [e]).status = none →
      (matchBytecodeToAddress chainName compiledRuntimeBytecode compiledCreationBytecode
        checksum [e]).message ≠ none) ∧
    (∀ e, e.getBytecodeResult = Except.error () →
      (matchBytecodeToAddress chainName compiledRuntimeBytecode compiledCreationBytecode
        checksum [e]).message = some (msgUnavailable chainName)) ∧
    (∀ e, e.getBytecodeResult = Except.ok "0x" →
      (matchBytecodeToAddress chainName compiledRuntimeBytecode compiledCreationBytecode
        checksum [e]).message = some (msgNoContract chainName (checksum e.address))) ∧
    (∀ e s r, e.getBytecodeResult = Except.ok s → s ≠ "" → s ≠ "0x" →
      compareBytecodes (some s) none compiledRuntimeBytecode compiledCreationBytecode
        e.fetcher = Except.ok r → r.status = none →
      (matchBytecodeToAddress chainName compiledRuntimeBytecode compiledCreationBytecode
        checksum [e]).message = some msgMismatch) := by
  refine ⟨?_, ?_, ?_, ?_, ?_⟩
  · intro envs h
    unfold matchBytecodeToAddress
    exact matchLoop_message_none envs.length chainName compiledRuntimeBytecode
      compiledCreationBytecode checksum h envs initialMatch rfl
  · intro e hstat
    unfold matchBytecodeToAddress at hstat ⊢
    cases hc : compareBytecodes (deployedOf e) none compiledRuntimeBytecode
        compiledCreationBytecode e.fetcher with
    | ok r =>
        cases hs : r.status with
        | some st =>
            exfalso
            simp [matchLoop, hc, hs] at hstat
        | none =>
            simp only [List.length_singleton, matchLoop, hc, hs]
            rw [if_pos (show True ∧ initialMatch.message = none from ⟨trivial, rfl⟩)]
            split
            · simp
            · split <;> simp
    | error err =>
        simp [matchLoop, hc, initialMatch]
  · intro e hfetch
    have hd : deployedOf e = none := by simp [deployedOf, hfetch]
    have hcmp : compareBytecodes none none compiledRuntimeBytecode compiledCreationBytecode
        e.fetcher = Except.ok ⟨none, none⟩ := rfl
    simp [matchBytecodeToAddress, matchLoop, hd, hcmp, initialMatch]
  · intro e hfetch
    have hd : deployedOf e = some "0x" := by simp [deployedOf, hfetch]
    have hcmp : compareBytecodes (some "0x") none compiledRuntimeBytecode
        compiledCreationBytecode e.fetcher = Except.ok ⟨none, none⟩ := rfl
    have hne1 : ("0x" : String) ≠ "" := by decide
    simp [matchBytecodeToAddress, matchLoop, hd, hcmp, hne1, initialMatch]
  · intro e s r hfetch hse hsx hc hs
    have hd : deployedOf e = some s := by simp [deployedOf, hfetch]
    simp [matchBytecodeToAddress, matchLoop, hd, hc, hs, hse, hsx, initialMatch]

/-- Closed witness for C7: two candidates produce no diagnostic; a single
candidate produces the three distinct diagnostics in the three situations,
and those diagnostics are pairwise different. -/
theorem claim7_single_candidate_diagnostics_witness :
    (matchBytecodeToAddress "Chain" "0xbbcc" "0x" (fun x => x)
      [⟨"0xA", Except.error (), Except.error ()⟩,
       ⟨"0xB", Except.error (), Except.error ()⟩]).message = none ∧
    (matchBytecodeToAddress "Chain" "0xbbcc" "0x" (fun x => x)
      [⟨"0xA", Except.error (), Except.error ()⟩]).message
      = some (msgUnavailable "Chain") ∧
    (matchBytecodeToAddress "Chain" "0xbbcc" "0x" (fun x => x)
      [⟨"0xA", Except.ok "0x", Except.error ()⟩]).message
      = some (msgNoContract "Chain" "0xA") ∧
    (matchBytecodeToAddress "Chain" "0xbbcc" "0x" (fun x => x)
      [⟨"0xA", Except.ok "0xaa", Except.error ()⟩]).message
      = some msgMismatch ∧
    msgUnavailable "Chain" ≠ msgNoContract "Chain" "0xA" ∧
    msgUnavailable "Chain" ≠ msgMismatch ∧
    msgNoContract "Chain" "0xA" ≠ msgMismatch :=
  ⟨(claim7_single_candidate_diagnostics "Chain" "0xbbcc" "0x" (fun x => x)).1
      [⟨"0xA", Except.error (), Except.error ()⟩,
       ⟨"0xB", Except.error (), Except.error ()⟩] (by decide),
   (claim7_single_candidate_diagnostics "Chain" "0xbbcc" "0x" (fun x => x)).2.2.1
      ⟨"0xA", Except.error (), Except.error ()⟩ rfl,
   (claim7_single_candidate_diagnostics "Chain" "0xbbcc" "0x" (fun x => x)).2.2.2.1
      ⟨"0xA", Except.ok "0x", Except.error ()⟩ rfl,
   (claim7_single_candidate_diagnostics "Chain" "0xbbcc" "0x" (fun x => x)).2.2.2.2
      ⟨"0xA", Except.ok "0xaa", Except.error ()⟩ "0xaa" ⟨none, none⟩ rfl
      (by decide) (by decide) rfl rfl,
   by decide, by decide, by decide⟩

/-- Closed witness for C10: creation data equal to the compiled creation
bytecode gives exact status with arguments `0x`, and the storage phase
persists the constructor-arguments file with that content. -/
theorem claim10_empty_constructor_args_witness :
    compareBytecodes (some "0xaabb") none "0xccdd" "0xee" (Except.ok "0xee")
      = Except.ok ⟨some Status.perfect, some "0x"⟩ ∧
    (∃ m1 acts,
      injectStore "1" "C" "md" [("a.sol", "src")] (fun x => x)
        { address := some "0xA", status := some Status.perfect,
          encodedConstructorArgs := some "0x", message := none } (some "/ipfs/Qm") =
        Except.ok (m1, acts) ∧
      StorageAction.saveTarget
        { matchQuality := some MatchQuality.full, chain := "1", address := "0xA",
          source := some false, fileName := "constructor-args.txt" } "0x" ∈ acts) ∧
    strDrop "0x" 2 = "" :=
  claim10_empty_constructor_args "0xaabb" "0xccdd" "0xee" "1" "C" "md" "0xA" "/ipfs/Qm"
    [("a.sol", "src")] (fun x => x)
    (by decide) (by decide) (by decide) (by decide) (by decide)

/-- C8: the content-address deriver checks the decoded trailer keys in the
priority order `bzzr0`, `bzzr1`, `ipfs`, mapping the first present key to
its path form; when none of the keys is present (which, modelled from the
spec, includes a failed decode), it returns null without raising an
error. -/
theorem claim8_metadata_path_priority (toB58 : List Nat → String) (cborData : CborMap) :
    (∀ b, cborData.bzzr0 = some b →
      getMetadataPathFromCborEncoded cborData toB58 = some ("/swarm/bzzr0/" ++ hexOfBytes b)) ∧
    (∀ b, cborData.bzzr0 = none → cborData.bzzr1 = some b →
      getMetadataPathFromCborEncoded cborData toB58 = some ("/swarm/bzzr1/" ++ hexOfBytes b)) ∧
    (∀ b, cborData.bzzr0 = none → cborData.bzzr1 = none → cborData.ipfs = some b →
      getMetadataPathFromCborEncoded cborData toB58 = some ("/ipfs/" ++ toB58 b)) ∧
    (cborData.bzzr0 = none → cborData.bzzr1 = none → cborData.ipfs = none →
      getMetadataPathFromCborEncoded cborData toB58 = none) := by
  refine ⟨?_, ?_, ?_, ?_⟩ <;> intros <;> simp_all [getMetadataPathFromCborEncoded]

/-- Closed witness for C8: a `bzzr0` trailer maps to its swarm path even
with an `ipfs` key also present, and an empty decoded trailer maps to
null. -/
theorem claim8_metadata_path_priority_witness :
    getMetadataPathFromCborEncoded ⟨some [171, 205], none, some [7]⟩ (fun _ => "Qm")
      = some "/swarm/bzzr0/abcd" ∧
    getMetadataPathFromCborEncoded ⟨none, none, none⟩ (fun _ => "Qm") = none := by
  constructor
  · rw [(claim8_metadata_path_priority (fun _ => "Qm") ⟨some [171, 205], none, some [7]⟩).1
      [171, 205] rfl]
    rfl
  · exact (claim8_metadata_path_priority (fun _ => "Qm") ⟨none, none, none⟩).2.2.2 rfl rfl rfl

/-- C9: with a non-none match, a derived content-address path makes the
storage phase save the metadata at that path and delete the stale partial
record, keeping the status; with no derived path the status is downgraded
to partial regardless of the comparator status, and sources and metadata
are stored tagged with the resulting quality. -/
theorem claim9_storage_phase
    (chain contractName metadata : String) (sources : List (String × String))
    (sanitize : String → String) (m : MatchResult) (a : String) (st : Status)
    (ha : m.address = some a) (hs : m.status = some st) :
    (∀ p, ∃ acts,
      injectStore chain contractName metadata sources sanitize m (some p) =
        Except.ok (m, acts) ∧
      StorageAction.savePath p metadata ∈ acts ∧
      StorageAction.deletePartialRecord chain a ∈ acts ∧
      StorageAction.saveTarget
        { matchQuality := statusToMatchQuality (some st), chain := chain, address := a,
          source := none, fileName := "metadata.json" } metadata ∈ acts ∧
      (∀ pr ∈ sources, StorageAction.saveTarget
        { matchQuality := statusToMatchQuality (some st), chain := chain, address := a,
          source := some true, fileName := sanitize pr.fst } pr.snd ∈ acts) ∧
      (∀ act ∈ acts, actionTag act = none ∨
        actionTag act = some (statusToMatchQuality (some st)))) ∧
    (∃ acts,
      injectStore chain contractName metadata sources sanitize m none =
        Except.ok ({ m with status := some Status.partialMatch }, acts) ∧
      (∀ pth c, StorageAction.savePath pth c ∉ acts) ∧
      (∀ ch ad, StorageAction.deletePartialRecord ch ad ∉ acts) ∧
      StorageAction.saveTarget
        { matchQuality := some MatchQuality.partialQuality, chain := chain, address := a,
          source := none, fileName := "metadata.json" } metadata ∈ acts ∧
      (∀ pr ∈ sources, StorageAction.saveTarget
        { matchQuality := some MatchQuality.partialQuality, chain := chain, address := a,
          source := some true, fileName := sanitize pr.fst } pr.snd ∈ acts) ∧
      (∀ act ∈ acts, actionTag act = none ∨
        actionTag act = some (some MatchQuality.partialQuality))) := by
  obtain ⟨maddr, mst, margs, mmsg⟩ := m
  have ha' : maddr = some a := ha
  have hs' : mst = some st := hs
  subst ha'
  subst hs'
  constructor
  · intro p
    refine ⟨_, rfl, ?_, ?_, ?_, ?_, ?_⟩
    · simp
    · simp
    · simp
    · intro pr hpr
      simp only [List.mem_append, List.mem_cons, List.mem_map, List.not_mem_nil, or_false]
      exact Or.inl (Or.inl (Or.inr ⟨pr, hpr, rfl⟩))
    · intro act hact
      simp only [List.mem_append] at hact
      rcases hact with ((hA | hB) | hC) | hD
      · simp only [List.mem_cons, List.not_mem_nil, or_false] at hA
        rcases hA with rfl | rfl <;> simp [actionTag]
      · simp only [List.mem_map] at hB
        obtain ⟨pr, hpr, rfl⟩ := hB
        simp [actionTag]
      · simp only [List.mem_cons, List.not_mem_nil, or_false] at hC
        subst hC
        simp [actionTag]
      · cases margs with
        | none => simp at hD
        | some args =>
            by_cases hargs : args = ""
            · simp [hargs] at hD
            · simp only [if_neg hargs, List.mem_cons, List.not_mem_nil, or_false] at hD
              subst hD
              simp [actionTag, statusToMatchQuality]
  · refine ⟨_, rfl, ?_, ?_, ?_, ?_, ?_⟩
    · intro pth c hmem
      simp only [List.nil_append, List.mem_append] at hmem
      rcases hmem with (hB | hC) | hD
      · simp only [List.mem_map] at hB
        obtain ⟨pr, hpr, heq⟩ := hB
        exact StorageAction.noConfusion heq
      · simp at hC
      · cases margs with
        | none => simp at hD
        | some args =>
            by_cases hargs : args = ""
            · simp [hargs] at hD
            · simp only [if_neg hargs, List.mem_cons, List.not_mem_nil, or_false] at hD
              exact StorageAction.noConfusion hD
    · intro ch ad hmem
      simp only [List.nil_append, List.mem_append] at hmem
      rcases hmem with (hB | hC) | hD
      · simp only [List.mem_map] at hB
        obtain ⟨pr, hpr, heq⟩ := hB
        exact StorageAction.noConfusion heq
      · simp at hC
      · cases margs with
        | none => simp at hD
        | some args =>
            by_cases hargs : args = ""
            · simp [hargs] at hD
            · simp only [if_neg hargs, List.mem_cons, List.not_mem_nil, or_false] at hD
              exact StorageAction.noConfusion hD
    · simp [statusToMatchQuality]
    · intro pr hpr
      simp only [List.nil_append, List.mem_append, List.mem_cons, List.mem_map,
        List.not_mem_nil, or_false]
      exact Or.inl (Or.inl ⟨pr, hpr, rfl⟩)
    · intro act hact
      simp only [List.nil_append, List.mem_append] at hact
      rcases hact with (hB | hC) | hD
      · simp only [List.mem_map] at hB
        obtain ⟨pr, hpr, rfl⟩ := hB
        simp [actionTag, statusToMatchQuality]
      · simp only [List.mem_cons, List.not_mem_nil, or_false] at hC
        subst hC
        simp [actionTag, statusToMatchQuality]
      · cases margs with
        | none => simp at hD
        | some args =>
            by_cases hargs : args = ""
            · simp [hargs] at hD
            · simp only [if_neg hargs, List.mem_cons, List.not_mem_nil, or_false] at hD
              subst hD
              simp [actionTag, statusToMatchQuality]

/-- Closed witness for C9: a concrete perfect match with a derived path
keeps its status and emits the path save and stale-record deletion. -/
theorem claim9_storage_phase_witness :
    ∃ acts,
      injectStore "1" "C" "md" [("a.sol", "src")] (fun x => x)
        ⟨some "0xA", some Status.perfect, some "0x", none⟩ (some "/ipfs/Qm") =
        Except.ok (⟨some "0xA", some Status.perfect, some "0x", none⟩, acts) ∧
      StorageAction.savePath "/ipfs/Qm" "md" ∈ acts ∧
      StorageAction.deletePartialRecord "1" "0xA" ∈ acts ∧
      StorageAction.saveTarget
        ⟨statusToMatchQuality (some Status.perfect), "1", "0xA", none, "metadata.json"⟩
        "md" ∈ acts ∧
      (∀ pr ∈ [("a.sol", "src")], StorageAction.saveTarget
        ⟨statusToMatchQuality (some Status.perfect), "1", "0xA", some true, pr.fst⟩
        pr.snd ∈ acts) ∧
      (∀ act ∈ acts, actionTag act = none ∨
        actionTag act = some (statusToMatchQuality (some Status.perfect))) :=
  (claim9_storage_phase "1" "C" "md" [("a.sol", "src")] (fun x => x)
    ⟨some "0xA", some Status.perfect, some "0x", none⟩ "0xA" Status.perfect
    rfl rfl).1 "/ipfs/Qm"

end Sourcify
